import Mathlib

/-!
Verification of the instruction-simplification (peephole) engine in
`lib/SILPasses/Utils/SimplifyInstruction.cpp`.

The engine is embedded shallowly: a SIL value is identified with the
instruction producing it (SSA), so operand chasing (`dyn_cast` on the
operand's producing instruction) becomes pattern matching on the operand
tree.  Types, enum elements, intrinsic and builtin identifiers are opaque
equality-comparable tokens, exactly the interface the engine consumes.
The one rule that reads control flow (`visitEnumInst`) receives the
block-siting information it queries (parent block, predecessor list,
terminators) as an explicit read-only context.
-/

/-- An opaque, equality-comparable SIL type identity (`SILType`). -/
structure SILType where
  tid : Nat
deriving DecidableEq

/-- An opaque, equality-comparable enum case discriminant (`EnumElementDecl`). -/
structure EnumElement where
  eid : Nat
deriving DecidableEq

/-- LLVM intrinsic identifiers consulted by the engine
(`IntrinsicInfo::ID`): the six arithmetic-with-overflow intrinsics, the
`expect` value hint, `not_intrinsic` for plain builtins, and a catch-all
for every other intrinsic. -/
inductive IntrinsicID where
  | sadd_with_overflow
  | uadd_with_overflow
  | ssub_with_overflow
  | usub_with_overflow
  | smul_with_overflow
  | umul_with_overflow
  | expect
  | not_intrinsic
  | otherIntrinsic (n : Nat)
deriving DecidableEq

/-- Builtin identifiers consulted by the engine (`BuiltinInfo::ID`): the
six `BUILTIN_BINARY_OPERATION_WITH_OVERFLOW` entries of `Builtins.def`,
a marker for "no builtin", and a catch-all. -/
inductive BuiltinID where
  | sAddOver
  | uAddOver
  | sSubOver
  | uSubOver
  | sMulOver
  | uMulOver
  | noBuiltin
  | otherBuiltin (n : Nat)
deriving DecidableEq

/-- The single-operand representation-conversion instruction kinds the
engine pattern-matches on. -/
inductive ConversionKind where
  | addressToPointer
  | pointerToAddress
  | refToRawPointer
  | rawPointerToRef
  | uncheckedRefCast
  | uncheckedAddrCast
  | upcastK
deriving DecidableEq

/-- `CheckedCastKind` of an `unconditional_checked_cast`; the engine only
distinguishes `Downcast` from everything else. -/
inductive CheckedCastKind where
  | downcast
  | coercion
  | otherKind (n : Nat)
deriving DecidableEq

mutual
/-- A SIL value, identified with its producing instruction (SSA).
`input` stands for a value produced outside the fragment being probed
(function argument, or an instruction whose tag the engine never
inspects through this operand).  Every producer records its declared
result type. -/
inductive Value where
  | input (vid : Nat) (ty : SILType)
  | structInst (ty : SILType) (operands : ValueList)
  | tupleInst (ty : SILType) (operands : ValueList)
  | structExtract (operand : Value) (field : Nat) (ty : SILType)
  | tupleExtract (operand : Value) (field : Nat) (ty : SILType)
  | enumInst (ty : SILType) (elt : EnumElement) (payload : ValueOpt)
  | uncheckedEnumData (operand : Value) (elt : EnumElement) (ty : SILType)
  | conv (kind : ConversionKind) (operand : Value) (ty : SILType)
  | unconditionalCheckedCast (kind : CheckedCastKind) (operand : Value) (ty : SILType)
  | apply (callee : Value) (args : ValueList) (ty : SILType)
  | builtinFunctionRef (intrinsic : IntrinsicID) (builtin : BuiltinID) (ty : SILType)
  | integerLiteral (ty : SILType) (value : Int)
  | otherInst (tag : Nat) (operands : ValueList) (ty : SILType)
deriving DecidableEq

/-- Ordered operand list of an instruction. -/
inductive ValueList where
  | nil
  | cons (head : Value) (tail : ValueList)
deriving DecidableEq

/-- Optional payload operand of an `enum` instruction. -/
inductive ValueOpt where
  | noneV
  | someV (v : Value)
deriving DecidableEq
end

/-- Number of operands. -/
def ValueList.length : ValueList → Nat
  | .nil => 0
  | .cons _ t => 1 + t.length

/-- Operand at an index (`getOperand(i)` / `getArgument(i)` /
`getElements()[i]`); `none` when the index is out of range. -/
def ValueList.getVal : ValueList → Nat → Option Value
  | .nil, _ => none
  | .cons h _, 0 => some h
  | .cons _ t, n + 1 => t.getVal n

/-- View of the operand list as a `List`. -/
def ValueList.toList : ValueList → List Value
  | .nil => []
  | .cons h t => h :: t.toList

/-- Declared result type of a value's producing instruction
(`SILValue::getType`). -/
def getType : Value → SILType
  | .input _ ty => ty
  | .structInst ty _ => ty
  | .tupleInst ty _ => ty
  | .structExtract _ _ ty => ty
  | .tupleExtract _ _ ty => ty
  | .enumInst ty _ _ => ty
  | .uncheckedEnumData _ _ ty => ty
  | .conv _ _ ty => ty
  | .unconditionalCheckedCast _ _ ty => ty
  | .apply _ _ ty => ty
  | .builtinFunctionRef _ _ ty => ty
  | .integerLiteral ty _ => ty
  | .otherInst _ _ ty => ty

/-- `dyn_cast<IntegerLiteralInst>` succeeds. -/
def isIntegerLiteral : Value → Bool
  | .integerLiteral _ _ => true
  | _ => false

/-- The pattern `m_Zero()`: an integer literal with value 0. -/
def isZeroLiteral : Value → Bool
  | .integerLiteral _ v => v == 0
  | _ => false

/-- The pattern `m_One()`: an integer literal with value 1. -/
def isOneLiteral : Value → Bool
  | .integerLiteral _ v => v == 1
  | _ => false

/-- The six overflow intrinsics handled by `simplifyOverflowBuiltin`'s
first switch. -/
def isOverflowIntrinsic : IntrinsicID → Bool
  | .sadd_with_overflow => true
  | .uadd_with_overflow => true
  | .ssub_with_overflow => true
  | .usub_with_overflow => true
  | .smul_with_overflow => true
  | .umul_with_overflow => true
  | _ => false

/-- The six `BUILTIN_BINARY_OPERATION_WITH_OVERFLOW` builtin identifiers
handled by `simplifyOverflowBuiltin`'s second switch. -/
def isOverflowBuiltin : BuiltinID → Bool
  | .sAddOver => true
  | .uAddOver => true
  | .sSubOver => true
  | .uSubOver => true
  | .sMulOver => true
  | .uMulOver => true
  | _ => false

/-- `getLLVMIntrinsicIDForBuiltinWithOverflow`: the intrinsic matching an
overflow builtin.  The source is `llvm_unreachable` off the six overflow
builtins; the engine only calls this under the `isOverflowBuiltin`
guard, so the value returned elsewhere is irrelevant. -/
def getLLVMIntrinsicIDForBuiltinWithOverflow : BuiltinID → IntrinsicID
  | .sAddOver => .sadd_with_overflow
  | .uAddOver => .uadd_with_overflow
  | .sSubOver => .ssub_with_overflow
  | .uSubOver => .usub_with_overflow
  | .sMulOver => .smul_with_overflow
  | .uMulOver => .umul_with_overflow
  | _ => .not_intrinsic

/-- Switch body of `simplifyBinaryWithOverflow`, after the two operands
have been read and the both-non-constant early exit applied. -/
def simplifyBinaryWithOverflowCore (op1 op2 : Value) (id : IntrinsicID) : Option Value :=
  if !isIntegerLiteral op1 && !isIntegerLiteral op2 then
    none
  else
    match id with
    | .sadd_with_overflow | .uadd_with_overflow =>
      if isZeroLiteral op1 then some op2
      else if isZeroLiteral op2 then some op1
      else none
    | .ssub_with_overflow | .usub_with_overflow =>
      if isZeroLiteral op2 then some op1
      else none
    | .smul_with_overflow | .umul_with_overflow =>
      if isZeroLiteral op1 then some op1
      else if isZeroLiteral op2 then some op2
      else if isOneLiteral op1 then some op2
      else if isOneLiteral op2 then some op1
      else none
    | _ => none

/-- `simplifyBinaryWithOverflow`: reads `Args[0]` and `Args[1]` (the
source asserts `Args.size() >= 2`; fewer arguments declines here) and
folds known identity constants. -/
def simplifyBinaryWithOverflow (args : ValueList) (id : IntrinsicID) : Option Value :=
  match args.getVal 0, args.getVal 1 with
  | some op1, some op2 => simplifyBinaryWithOverflowCore op1 op2 id
  | _, _ => none

/-- `InstSimplifier::simplifyOverflowBuiltin`: dispatch on the callee's
intrinsic identifier, then (for non-intrinsic builtins) on its builtin
identifier. -/
def simplifyOverflowBuiltin (args : ValueList) (intrinsic : IntrinsicID)
    (builtin : BuiltinID) : Option Value :=
  if isOverflowIntrinsic intrinsic then
    simplifyBinaryWithOverflow args intrinsic
  else
    match intrinsic with
    | .not_intrinsic =>
      if isOverflowBuiltin builtin then
        simplifyBinaryWithOverflow args (getLLVMIntrinsicIDForBuiltinWithOverflow builtin)
      else none
    | _ => none

/-- Loop body of `visitStructInst`/`visitTupleInst` for structs: every
remaining operand must be a `struct_extract` from `src` whose field
number equals its position. -/
def structExtractsFrom (src : Value) : ValueList → Nat → Bool
  | .nil, _ => true
  | .cons op rest, i =>
    match op with
    | .structExtract exOp exField _ =>
      decide (exOp = src) && decide (exField = i) && structExtractsFrom src rest (i + 1)
    | _ => false

/-- Loop body of `visitTupleInst`: every remaining operand must be a
`tuple_extract` from `src` whose field number equals its position. -/
def tupleExtractsFrom (src : Value) : ValueList → Nat → Bool
  | .nil, _ => true
  | .cons op rest, i =>
    match op with
    | .tupleExtract exOp exField _ =>
      decide (exOp = src) && decide (exField = i) && tupleExtractsFrom src rest (i + 1)
    | _ => false

/-- `InstSimplifier::visitStructInst`: a struct rebuilt, in order, from
extracts of a same-typed struct `src` folds to `src`. -/
def visitStructInst (ty : SILType) (operands : ValueList) : Option Value :=
  match operands with
  | .nil => none
  | .cons first _ =>
    match first with
    | .structExtract src _ _ =>
      if ty ≠ getType src then none
      else if structExtractsFrom src operands 0 then some src
      else none
    | _ => none

/-- `InstSimplifier::visitTupleInst`: a tuple rebuilt, in order, from
extracts of a same-typed tuple `src` folds to `src`. -/
def visitTupleInst (ty : SILType) (operands : ValueList) : Option Value :=
  match operands with
  | .nil => none
  | .cons first _ =>
    match first with
    | .tupleExtract src _ _ =>
      if ty ≠ getType src then none
      else if tupleExtractsFrom src operands 0 then some src
      else none
    | _ => none

/-- `InstSimplifier::visitTupleExtractInst`:
`tuple_extract(tuple(... x ...), i) → x`, and, at field 0 only, the
overflow-builtin identity folds on an applied builtin callee.  The
source indexes `getElements()[i]` assuming the IR well-formedness
invariant; an out-of-range index declines here. -/
def visitTupleExtract (operand : Value) (field : Nat) : Option Value :=
  match operand with
  | .tupleInst _ elements => elements.getVal field
  | .apply callee args _ =>
    if field = 0 then
      match callee with
      | .builtinFunctionRef intrinsic builtin _ => simplifyOverflowBuiltin args intrinsic builtin
      | _ => none
    else none
  | _ => none

/-- `InstSimplifier::visitStructExtractInst`:
`struct_extract(struct(... x ...), i) → x`; the field's position indexes
the construct's operands. -/
def visitStructExtract (operand : Value) (field : Nat) : Option Value :=
  match operand with
  | .structInst _ fields => fields.getVal field
  | _ => none

/-- `InstSimplifier::visitUncheckedEnumDataInst`:
`unchecked_enum_data(enum(elt, payload), elt) → payload`; a mismatched
element declines (the source then asserts the enum has a payload). -/
def visitUncheckedEnumData (operand : Value) (elt : EnumElement) : Option Value :=
  match operand with
  | .enumInst _ srcElt payload =>
    if srcElt ≠ elt then none
    else
      match payload with
      | .someV p => some p
      | .noneV => none
  | _ => none

/-- `InstSimplifier::visitAddressToPointerInst`:
`address_to_pointer(pointer_to_address(x)) → x` when the inner cast's
declared type equals the outer cast's operand type — and the operand of
the outer cast is the inner cast itself, so both sides of that guard are
the inner cast's declared type. -/
def visitAddressToPointer (operand : Value) : Option Value :=
  match operand with
  | .conv .pointerToAddress x innerTy =>
    if innerTy = getType (Value.conv .pointerToAddress x innerTy) then some x
    else none
  | _ => none

/-- `InstSimplifier::visitPointerToAddressInst`:
`pointer_to_address(address_to_pointer(x)) → x` when `x`'s type equals
the outer cast's declared type. -/
def visitPointerToAddress (operand : Value) (ty : SILType) : Option Value :=
  match operand with
  | .conv .addressToPointer x _ =>
    if getType x = ty then some x
    else none
  | _ => none

/-- `InstSimplifier::visitRefToRawPointerInst`:
`ref_to_raw_pointer(raw_pointer_to_ref(x)) → x`, with no type check. -/
def visitRefToRawPointer (operand : Value) : Option Value :=
  match operand with
  | .conv .rawPointerToRef x _ => some x
  | _ => none

/-- `InstSimplifier::visitUnconditionalCheckedCastInst`: a checked
downcast of an upcast of `x` folds to `x` when the operand's type equals
the upcast's declared type and the downcast's declared type equals `x`'s
type. -/
def visitUnconditionalCheckedCast (kind : CheckedCastKind) (operand : Value)
    (ty : SILType) : Option Value :=
  match kind with
  | .downcast =>
    match operand with
    | .conv .upcastK x innerTy =>
      if getType (Value.conv .upcastK x innerTy) = innerTy ∧ ty = getType x then some x
      else none
    | _ => none
  | _ => none

/-- `InstSimplifier::visitUncheckedRefCastInst`: cancel an inner
`unchecked_ref_cast` or `upcast` of `x` when `x`'s type equals the outer
declared type, else fold a representation-identity self-cast. -/
def visitUncheckedRefCast (operand : Value) (ty : SILType) : Option Value :=
  match operand with
  | .conv .uncheckedRefCast x _ =>
    if getType x = ty then some x
    else if getType operand = ty then some operand
    else none
  | .conv .upcastK x _ =>
    if getType x = ty then some x
    else if getType operand = ty then some operand
    else none
  | _ =>
    if getType operand = ty then some operand
    else none

/-- `InstSimplifier::visitUncheckedAddrCastInst`: cancel an inner
`unchecked_addr_cast` of `x` when `x`'s type equals the outer declared
type, else fold a representation-identity self-cast. -/
def visitUncheckedAddrCast (operand : Value) (ty : SILType) : Option Value :=
  match operand with
  | .conv .uncheckedAddrCast x _ =>
    if getType x = ty then some x
    else if getType operand = ty then some operand
    else none
  | _ =>
    if getType operand = ty then some operand
    else none

/-- `InstSimplifier::visitUpcastInst`:
`upcast(unchecked_ref_cast(x)) → x` when `x`'s type equals the outer
declared type. -/
def visitUpcast (operand : Value) (ty : SILType) : Option Value :=
  match operand with
  | .conv .uncheckedRefCast x _ =>
    if getType x = ty then some x
    else none
  | _ => none

/-- `InstSimplifier::visitApplyInst`: `apply(expect, constant, _) →
constant` when the callee is a builtin function reference for the
`expect` value hint and the first argument is an integer literal. -/
def visitApply (callee : Value) (args : ValueList) : Option Value :=
  match callee with
  | .builtinFunctionRef intrinsic _ _ =>
    if intrinsic = .expect then
      match args.getVal 0 with
      | some a => if isIntegerLiteral a then some a else none
      | none => none
    else none
  | _ => none

/-- A block terminator, as consulted by `visitEnumInst`: either a
`switch_enum` (scrutinee, case-to-destination table, optional default
destination) or anything else. -/
inductive Terminator where
  | switchEnum (operand : Value) (cases : List (EnumElement × Nat)) (defaultDest : Option Nat)
  | otherTerm

/-- The control-flow siting the engine may query about the probed
instruction: its parent block, the parent's predecessor blocks, and
every block's terminator (read-only views of the IR graph). -/
structure InstContext where
  parentBlock : Nat
  predecessors : List Nat
  terminatorOf : Nat → Terminator

/-- `SILBasicBlock::getSinglePredecessor`: the parent's predecessor when
there is exactly one, else `none`. -/
def getSinglePredecessor (ctx : InstContext) : Option Nat :=
  match ctx.predecessors with
  | [p] => some p
  | _ => none

/-- `SwitchEnumInst::getCaseDestination`: the destination registered for
an element, falling back to the default destination. -/
def getCaseDestination (cases : List (EnumElement × Nat)) (defaultDest : Option Nat)
    (elt : EnumElement) : Option Nat :=
  match List.lookup elt cases with
  | some d => some d
  | none => defaultDest

/-- `InstSimplifier::visitEnumInst`: a payloadless `enum` whose block has
a single predecessor ending in a `switch_enum` over a same-typed
scrutinee, sited in the destination registered for its element, folds to
the scrutinee. -/
def visitEnumInst (ctx : InstContext) (ty : SILType) (elt : EnumElement)
    (payload : ValueOpt) : Option Value :=
  match payload with
  | .someV _ => none
  | .noneV =>
    match getSinglePredecessor ctx with
    | none => none
    | some pred =>
      match ctx.terminatorOf pred with
      | .switchEnum scrutinee cases defaultDest =>
        if getType scrutinee ≠ ty then none
        else if getCaseDestination cases defaultDest elt = some ctx.parentBlock then
          some scrutinee
        else none
      | .otherTerm => none

/-- `swift::simplifyInstruction`: total dispatch over the instruction
tag; tags without a registered visitor take `visitSILInstruction`'s
default and yield no simplification. -/
def simplifyInstruction (ctx : InstContext) (inst : Value) : Option Value :=
  match inst with
  | .structInst ty operands => visitStructInst ty operands
  | .tupleInst ty operands => visitTupleInst ty operands
  | .structExtract operand field _ => visitStructExtract operand field
  | .tupleExtract operand field _ => visitTupleExtract operand field
  | .enumInst ty elt payload => visitEnumInst ctx ty elt payload
  | .uncheckedEnumData operand elt _ => visitUncheckedEnumData operand elt
  | .conv .addressToPointer operand _ => visitAddressToPointer operand
  | .conv .pointerToAddress operand ty => visitPointerToAddress operand ty
  | .conv .refToRawPointer operand _ => visitRefToRawPointer operand
  | .conv .rawPointerToRef _ _ => none
  | .conv .uncheckedRefCast operand ty => visitUncheckedRefCast operand ty
  | .conv .uncheckedAddrCast operand ty => visitUncheckedAddrCast operand ty
  | .conv .upcastK operand ty => visitUpcast operand ty
  | .unconditionalCheckedCast kind operand ty => visitUnconditionalCheckedCast kind operand ty
  | .apply callee args _ => visitApply callee args
  | .input _ _ => none
  | .builtinFunctionRef _ _ _ => none
  | .integerLiteral _ _ => none
  | .otherInst _ _ _ => none

/-- Instruction tags with a registered visitor (everything else falls to
`visitSILInstruction`, which always declines). -/
def hasRegisteredRule : Value → Bool
  | .structInst _ _ => true
  | .tupleInst _ _ => true
  | .structExtract _ _ _ => true
  | .tupleExtract _ _ _ => true
  | .enumInst _ _ _ => true
  | .uncheckedEnumData _ _ _ => true
  | .conv .rawPointerToRef _ _ => false
  | .conv _ _ _ => true
  | .unconditionalCheckedCast _ _ _ => true
  | .apply _ _ _ => true
  | _ => false

/-- A context for probes that never read control flow. -/
def emptyCtx : InstContext :=
  ⟨0, [], fun _ => Terminator.otherTerm⟩

/-- The direct operands of an instruction, in order (for `apply`, the
callee followed by the arguments; for a payload-carrying `enum`, its
payload). -/
def directOperands : Value → List Value
  | .input _ _ => []
  | .structInst _ ops => ops.toList
  | .tupleInst _ ops => ops.toList
  | .structExtract op _ _ => [op]
  | .tupleExtract op _ _ => [op]
  | .enumInst _ _ .noneV => []
  | .enumInst _ _ (.someV p) => [p]
  | .uncheckedEnumData op _ _ => [op]
  | .conv _ op _ => [op]
  | .unconditionalCheckedCast _ op _ => [op]
  | .apply callee args _ => callee :: args.toList
  | .builtinFunctionRef _ _ _ => []
  | .integerLiteral _ _ => []
  | .otherInst _ ops _ => ops.toList

/-- `V` is a direct operand of `I`, or a direct operand of one of `I`'s
direct operands. -/
def withinTwo (I V : Value) : Prop :=
  V ∈ directOperands I ∨ ∃ O ∈ directOperands I, V ∈ directOperands O

/-- The scrutinee of the `switch_enum` terminating the unique
predecessor of the probed instruction's block, when that shape is
present. -/
def switchScrutinee (ctx : InstContext) : Option Value :=
  match getSinglePredecessor ctx with
  | none => none
  | some pred =>
    match ctx.terminatorOf pred with
    | .switchEnum scrutinee _ _ => some scrutinee
    | .otherTerm => none

/-- The two add-with-overflow intrinsic identifiers. -/
def addOverflowID (id : IntrinsicID) : Prop :=
  id = .sadd_with_overflow ∨ id = .uadd_with_overflow

/-- The two sub-with-overflow intrinsic identifiers. -/
def subOverflowID (id : IntrinsicID) : Prop :=
  id = .ssub_with_overflow ∨ id = .usub_with_overflow

/-- The two mul-with-overflow intrinsic identifiers. -/
def mulOverflowID (id : IntrinsicID) : Prop :=
  id = .smul_with_overflow ∨ id = .umul_with_overflow

/-- Any of the six overflow intrinsic identifiers. -/
def anyOverflowID (id : IntrinsicID) : Prop :=
  addOverflowID id ∨ subOverflowID id ∨ mulOverflowID id

/-- A two-argument call to an overflow primitive, identified by its
intrinsic and builtin identifiers. -/
def mkOverflowCall (intrinsic : IntrinsicID) (builtin : BuiltinID) (a b : Value)
    (fnTy resTy : SILType) : Value :=
  Value.apply (Value.builtinFunctionRef intrinsic builtin fnTy)
    (ValueList.cons a (ValueList.cons b ValueList.nil)) resTy

theorem ValueList.getVal_mem :
    ∀ (l : ValueList) (i : Nat) (a : Value), l.getVal i = some a → a ∈ l.toList
  | .nil, _, _ => by simp [ValueList.getVal]
  | .cons h t, 0, a => by
    intro e
    simp only [ValueList.getVal, Option.some.injEq] at e
    simp [ValueList.toList, e]
  | .cons h t, n + 1, a => by
    intro e
    simp only [ValueList.getVal] at e
    exact List.mem_cons_of_mem h (ValueList.getVal_mem t n a e)

theorem ValueList.mem_toList_sizeOf :
    ∀ (l : ValueList) (a : Value), a ∈ l.toList → sizeOf a < sizeOf l
  | .nil, a => by simp [ValueList.toList]
  | .cons h t, a => by
    intro hm
    simp only [ValueList.toList, List.mem_cons] at hm
    rcases hm with rfl | hm
    · simp only [ValueList.cons.sizeOf_spec]
      omega
    · have := ValueList.mem_toList_sizeOf t a hm
      simp only [ValueList.cons.sizeOf_spec]
      omega

theorem mem_directOperands_sizeOf (I V : Value) (h : V ∈ directOperands I) :
    sizeOf V < sizeOf I := by
  cases I with
  | input vid ty => simp [directOperands] at h
  | structInst ty ops =>
    have := ValueList.mem_toList_sizeOf ops V (by simpa [directOperands] using h)
    simp only [Value.structInst.sizeOf_spec]
    omega
  | tupleInst ty ops =>
    have := ValueList.mem_toList_sizeOf ops V (by simpa [directOperands] using h)
    simp only [Value.tupleInst.sizeOf_spec]
    omega
  | structExtract op f ty =>
    simp only [directOperands, List.mem_singleton] at h
    subst h
    simp only [Value.structExtract.sizeOf_spec]
    omega
  | tupleExtract op f ty =>
    simp only [directOperands, List.mem_singleton] at h
    subst h
    simp only [Value.tupleExtract.sizeOf_spec]
    omega
  | enumInst ty elt payload =>
    cases payload with
    | noneV => simp [directOperands] at h
    | someV p =>
      simp only [directOperands, List.mem_singleton] at h
      subst h
      simp only [Value.enumInst.sizeOf_spec, ValueOpt.someV.sizeOf_spec]
      omega
  | uncheckedEnumData op elt ty =>
    simp only [directOperands, List.mem_singleton] at h
    subst h
    simp only [Value.uncheckedEnumData.sizeOf_spec]
    omega
  | conv k op ty =>
    simp only [directOperands, List.mem_singleton] at h
    subst h
    simp only [Value.conv.sizeOf_spec]
    omega
  | unconditionalCheckedCast k op ty =>
    simp only [directOperands, List.mem_singleton] at h
    subst h
    simp only [Value.unconditionalCheckedCast.sizeOf_spec]
    omega
  | apply callee args ty =>
    simp only [directOperands, List.mem_cons] at h
    rcases h with rfl | h
    · simp only [Value.apply.sizeOf_spec]
      omega
    · have := ValueList.mem_toList_sizeOf args V h
      simp only [Value.apply.sizeOf_spec]
      omega
  | builtinFunctionRef i b ty => simp [directOperands] at h
  | integerLiteral ty v => simp [directOperands] at h
  | otherInst tag ops ty =>
    have := ValueList.mem_toList_sizeOf ops V (by simpa [directOperands] using h)
    simp only [Value.otherInst.sizeOf_spec]
    omega

theorem withinTwo_sizeOf (I V : Value) (h : withinTwo I V) : sizeOf V < sizeOf I := by
  rcases h with h | ⟨O, hO, hV⟩
  · exact mem_directOperands_sizeOf I V h
  · exact (mem_directOperands_sizeOf O V hV).trans (mem_directOperands_sizeOf I O hO)

theorem withinTwo_ne (I V : Value) (h : withinTwo I V) : V ≠ I := by
  intro e
  subst e
  exact Nat.lt_irrefl _ (withinTwo_sizeOf V V h)

theorem structExtractsFrom_sound (src : Value) :
    ∀ (l : ValueList) (k : Nat), structExtractsFrom src l k = true →
    ∀ i, i < l.length → ∃ t, l.getVal i = some (Value.structExtract src (k + i) t)
  | .nil, k => by
    intro _ i hi
    simp [ValueList.length] at hi
  | .cons op rest, k => by
    intro h i hi
    cases op
    case structExtract exOp exField ext =>
      simp only [structExtractsFrom, Bool.and_eq_true, decide_eq_true_eq] at h
      obtain ⟨⟨h1, h2⟩, hrest⟩ := h
      cases i with
      | zero => exact ⟨ext, by simp [ValueList.getVal, h1, h2]⟩
      | succ n =>
        obtain ⟨t, ht⟩ := structExtractsFrom_sound src rest (k + 1) hrest n
          (by simp only [ValueList.length] at hi; omega)
        refine ⟨t, ?_⟩
        simp only [ValueList.getVal]
        have e : k + (n + 1) = k + 1 + n := by omega
        rw [e]
        exact ht
    all_goals simp [structExtractsFrom] at h

theorem structExtractsFrom_complete (src : Value) :
    ∀ (l : ValueList) (k : Nat),
    (∀ i, i < l.length → ∃ t, l.getVal i = some (Value.structExtract src (k + i) t)) →
    structExtractsFrom src l k = true
  | .nil, k => by
    intro _
    simp [structExtractsFrom]
  | .cons op rest, k => by
    intro h
    obtain ⟨t, ht⟩ := h 0 (by simp only [ValueList.length]; omega)
    simp only [ValueList.getVal, Option.some.injEq] at ht
    subst ht
    have hrec : structExtractsFrom src rest (k + 1) = true := by
      apply structExtractsFrom_complete src rest (k + 1)
      intro i hi
      obtain ⟨t2, ht2⟩ := h (i + 1) (by simp only [ValueList.length]; omega)
      refine ⟨t2, ?_⟩
      simp only [ValueList.getVal] at ht2
      have e : k + 1 + i = k + (i + 1) := by omega
      rw [e]
      exact ht2
    simp [structExtractsFrom, hrec]

theorem tupleExtractsFrom_sound (src : Value) :
    ∀ (l : ValueList) (k : Nat), tupleExtractsFrom src l k = true →
    ∀ i, i < l.length → ∃ t, l.getVal i = some (Value.tupleExtract src (k + i) t)
  | .nil, k => by
    intro _ i hi
    simp [ValueList.length] at hi
  | .cons op rest, k => by
    intro h i hi
    cases op
    case tupleExtract exOp exField ext =>
      simp only [tupleExtractsFrom, Bool.and_eq_true, decide_eq_true_eq] at h
      obtain ⟨⟨h1, h2⟩, hrest⟩ := h
      cases i with
      | zero => exact ⟨ext, by simp [ValueList.getVal, h1, h2]⟩
      | succ n =>
        obtain ⟨t, ht⟩ := tupleExtractsFrom_sound src rest (k + 1) hrest n
          (by simp only [ValueList.length] at hi; omega)
        refine ⟨t, ?_⟩
        simp only [ValueList.getVal]
        have e : k + (n + 1) = k + 1 + n := by omega
        rw [e]
        exact ht
    all_goals simp [tupleExtractsFrom] at h

theorem tupleExtractsFrom_complete (src : Value) :
    ∀ (l : ValueList) (k : Nat),
    (∀ i, i < l.length → ∃ t, l.getVal i = some (Value.tupleExtract src (k + i) t)) →
    tupleExtractsFrom src l k = true
  | .nil, k => by
    intro _
    simp [tupleExtractsFrom]
  | .cons op rest, k => by
    intro h
    obtain ⟨t, ht⟩ := h 0 (by simp only [ValueList.length]; omega)
    simp only [ValueList.getVal, Option.some.injEq] at ht
    subst ht
    have hrec : tupleExtractsFrom src rest (k + 1) = true := by
      apply tupleExtractsFrom_complete src rest (k + 1)
      intro i hi
      obtain ⟨t2, ht2⟩ := h (i + 1) (by simp only [ValueList.length]; omega)
      refine ⟨t2, ?_⟩
      simp only [ValueList.getVal] at ht2
      have e : k + 1 + i = k + (i + 1) := by omega
      rw [e]
      exact ht2
    simp [tupleExtractsFrom, hrec]

theorem simplifyBinaryWithOverflowCore_prov (op1 op2 : Value) (id : IntrinsicID) (V : Value)
    (h : simplifyBinaryWithOverflowCore op1 op2 id = some V) : V = op1 ∨ V = op2 := by
  cases id <;>
    simp only [simplifyBinaryWithOverflowCore] at h <;>
    repeat' split at h
  all_goals try exact Option.noConfusion h
  all_goals injection h with h
  all_goals first
    | exact Or.inl h.symm
    | exact Or.inr h.symm

theorem simplifyBinaryWithOverflow_mem (args : ValueList) (id : IntrinsicID) (V : Value)
    (h : simplifyBinaryWithOverflow args id = some V) : V ∈ args.toList := by
  unfold simplifyBinaryWithOverflow at h
  split at h
  next op1 op2 h0 h1 =>
    rcases simplifyBinaryWithOverflowCore_prov op1 op2 id V h with rfl | rfl
    · exact ValueList.getVal_mem args 0 V h0
    · exact ValueList.getVal_mem args 1 V h1
  next => injection h

theorem simplifyOverflowBuiltin_mem (args : ValueList) (intrinsic : IntrinsicID)
    (builtin : BuiltinID) (V : Value)
    (h : simplifyOverflowBuiltin args intrinsic builtin = some V) : V ∈ args.toList := by
  unfold simplifyOverflowBuiltin at h
  split at h
  · exact simplifyBinaryWithOverflow_mem args intrinsic V h
  · split at h
    · split at h
      · exact simplifyBinaryWithOverflow_mem args _ V h
      · injection h
    · injection h

theorem visitStructInst_prov (ty : SILType) (ops : ValueList) (V : Value)
    (h : visitStructInst ty ops = some V) : withinTwo (Value.structInst ty ops) V := by
  unfold visitStructInst at h
  split at h
  · exact Option.noConfusion h
  · split at h
    next src f t =>
      split at h
      · exact Option.noConfusion h
      · split at h
        · injection h with h
          subst h
          refine Or.inr ⟨Value.structExtract src f t, ?_, by simp [directOperands]⟩
          simp [directOperands, ValueList.toList]
        · exact Option.noConfusion h
    next => exact Option.noConfusion h

theorem visitTupleInst_prov (ty : SILType) (ops : ValueList) (V : Value)
    (h : visitTupleInst ty ops = some V) : withinTwo (Value.tupleInst ty ops) V := by
  unfold visitTupleInst at h
  split at h
  · exact Option.noConfusion h
  · split at h
    next src f t =>
      split at h
      · exact Option.noConfusion h
      · split at h
        · injection h with h
          subst h
          refine Or.inr ⟨Value.tupleExtract src f t, ?_, by simp [directOperands]⟩
          simp [directOperands, ValueList.toList]
        · exact Option.noConfusion h
    next => exact Option.noConfusion h

theorem visitStructExtract_prov (operand : Value) (field : Nat) (ty : SILType) (V : Value)
    (h : visitStructExtract operand field = some V) :
    withinTwo (Value.structExtract operand field ty) V := by
  unfold visitStructExtract at h
  split at h
  next t fields =>
    refine Or.inr ⟨Value.structInst t fields, by simp [directOperands], ?_⟩
    simp only [directOperands]
    exact ValueList.getVal_mem _ _ _ h
  next => exact Option.noConfusion h

theorem visitTupleExtract_prov (operand : Value) (field : Nat) (ty : SILType) (V : Value)
    (h : visitTupleExtract operand field = some V) :
    withinTwo (Value.tupleExtract operand field ty) V := by
  unfold visitTupleExtract at h
  split at h
  next t elems =>
    refine Or.inr ⟨Value.tupleInst t elems, by simp [directOperands], ?_⟩
    simp only [directOperands]
    exact ValueList.getVal_mem _ _ _ h
  next callee args aty =>
    split at h
    · split at h
      next i b t =>
        refine Or.inr ⟨Value.apply (Value.builtinFunctionRef i b t) args aty,
          by simp [directOperands], ?_⟩
        simp only [directOperands]
        exact List.mem_cons_of_mem _ (simplifyOverflowBuiltin_mem _ _ _ _ h)
      next => exact Option.noConfusion h
    · exact Option.noConfusion h
  next => exact Option.noConfusion h

theorem visitUncheckedEnumData_prov (operand : Value) (elt : EnumElement) (ty : SILType)
    (V : Value) (h : visitUncheckedEnumData operand elt = some V) :
    withinTwo (Value.uncheckedEnumData operand elt ty) V := by
  unfold visitUncheckedEnumData at h
  split at h
  next t srcElt payload =>
    split at h
    · exact Option.noConfusion h
    · split at h
      next p =>
        injection h with h
        subst h
        exact Or.inr ⟨Value.enumInst t srcElt (ValueOpt.someV p),
          by simp [directOperands], by simp [directOperands]⟩
      next => exact Option.noConfusion h
  next => exact Option.noConfusion h

theorem visitAddressToPointer_prov (operand : Value) (ty : SILType) (V : Value)
    (h : visitAddressToPointer operand = some V) :
    withinTwo (Value.conv ConversionKind.addressToPointer operand ty) V := by
  unfold visitAddressToPointer at h
  split at h
  next x innerTy =>
    split at h
    · injection h with h
      subst h
      exact Or.inr ⟨Value.conv ConversionKind.pointerToAddress x innerTy,
        by simp [directOperands], by simp [directOperands]⟩
    · exact Option.noConfusion h
  next => exact Option.noConfusion h

theorem visitPointerToAddress_prov (operand : Value) (ty : SILType) (V : Value)
    (h : visitPointerToAddress operand ty = some V) :
    withinTwo (Value.conv ConversionKind.pointerToAddress operand ty) V := by
  unfold visitPointerToAddress at h
  split at h
  next x innerTy =>
    split at h
    · injection h with h
      subst h
      exact Or.inr ⟨Value.conv ConversionKind.addressToPointer x innerTy,
        by simp [directOperands], by simp [directOperands]⟩
    · exact Option.noConfusion h
  next => exact Option.noConfusion h

theorem visitRefToRawPointer_prov (operand : Value) (ty : SILType) (V : Value)
    (h : visitRefToRawPointer operand = some V) :
    withinTwo (Value.conv ConversionKind.refToRawPointer operand ty) V := by
  unfold visitRefToRawPointer at h
  split at h
  next x innerTy =>
    injection h with h
    subst h
    exact Or.inr ⟨Value.conv ConversionKind.rawPointerToRef x innerTy,
      by simp [directOperands], by simp [directOperands]⟩
  next => exact Option.noConfusion h

theorem visitUnconditionalCheckedCast_prov (kind : CheckedCastKind) (operand : Value)
    (ty : SILType) (V : Value) (h : visitUnconditionalCheckedCast kind operand ty = some V) :
    withinTwo (Value.unconditionalCheckedCast kind operand ty) V := by
  unfold visitUnconditionalCheckedCast at h
  split at h
  · split at h
    next x innerTy =>
      split at h
      · injection h with h
        subst h
        exact Or.inr ⟨Value.conv ConversionKind.upcastK x innerTy,
          by simp [directOperands], by simp [directOperands]⟩
      · exact Option.noConfusion h
    next => exact Option.noConfusion h
  · exact Option.noConfusion h

theorem visitUncheckedRefCast_prov (operand : Value) (ty : SILType) (V : Value)
    (h : visitUncheckedRefCast operand ty = some V) :
    withinTwo (Value.conv ConversionKind.uncheckedRefCast operand ty) V := by
  unfold visitUncheckedRefCast at h
  split at h
  next x t =>
    split at h
    · injection h with h
      subst h
      exact Or.inr ⟨Value.conv ConversionKind.uncheckedRefCast x t,
        by simp [directOperands], by simp [directOperands]⟩
    · split at h
      · injection h with h
        subst h
        exact Or.inl (by simp [directOperands])
      · exact Option.noConfusion h
  next x t =>
    split at h
    · injection h with h
      subst h
      exact Or.inr ⟨Value.conv ConversionKind.upcastK x t,
        by simp [directOperands], by simp [directOperands]⟩
    · split at h
      · injection h with h
        subst h
        exact Or.inl (by simp [directOperands])
      · exact Option.noConfusion h
  next =>
    split at h
    · injection h with h
      subst h
      exact Or.inl (by simp [directOperands])
    · exact Option.noConfusion h

theorem visitUncheckedAddrCast_prov (operand : Value) (ty : SILType) (V : Value)
    (h : visitUncheckedAddrCast operand ty = some V) :
    withinTwo (Value.conv ConversionKind.uncheckedAddrCast operand ty) V := by
  unfold visitUncheckedAddrCast at h
  split at h
  next x t =>
    split at h
    · injection h with h
      subst h
      exact Or.inr ⟨Value.conv ConversionKind.uncheckedAddrCast x t,
        by simp [directOperands], by simp [directOperands]⟩
    · split at h
      · injection h with h
        subst h
        exact Or.inl (by simp [directOperands])
      · exact Option.noConfusion h
  next =>
    split at h
    · injection h with h
      subst h
      exact Or.inl (by simp [directOperands])
    · exact Option.noConfusion h

theorem visitUpcast_prov (operand : Value) (ty : SILType) (V : Value)
    (h : visitUpcast operand ty = some V) :
    withinTwo (Value.conv ConversionKind.upcastK operand ty) V := by
  unfold visitUpcast at h
  split at h
  next x t =>
    split at h
    · injection h with h
      subst h
      exact Or.inr ⟨Value.conv ConversionKind.uncheckedRefCast x t,
        by simp [directOperands], by simp [directOperands]⟩
    · exact Option.noConfusion h
  next => exact Option.noConfusion h

theorem visitApply_prov (callee : Value) (args : ValueList) (ty : SILType) (V : Value)
    (h : visitApply callee args = some V) : withinTwo (Value.apply callee args ty) V := by
  unfold visitApply at h
  split at h
  next i b t =>
    split at h
    · split at h
      next a ha =>
        split at h
        · injection h with h
          subst h
          refine Or.inl ?_
          simp only [directOperands]
          exact List.mem_cons_of_mem _ (ValueList.getVal_mem args 0 _ ha)
        · exact Option.noConfusion h
      next => exact Option.noConfusion h
    · exact Option.noConfusion h
  next => exact Option.noConfusion h

theorem visitEnumInst_scrutinee (ctx : InstContext) (ty : SILType) (elt : EnumElement)
    (payload : ValueOpt) (V : Value) (h : visitEnumInst ctx ty elt payload = some V) :
    payload = ValueOpt.noneV ∧ switchScrutinee ctx = some V := by
  cases payload with
  | someV p => exact Option.noConfusion h
  | noneV =>
    refine ⟨rfl, ?_⟩
    simp only [visitEnumInst] at h
    cases hp : getSinglePredecessor ctx with
    | none =>
      rw [hp] at h
      exact Option.noConfusion h
    | some pred =>
      simp only [hp] at h
      cases ht : ctx.terminatorOf pred with
      | otherTerm =>
        rw [ht] at h
        exact Option.noConfusion h
      | switchEnum scrutinee caseDests dflt =>
        simp only [ht] at h
        simp only [switchScrutinee, hp, ht]
        split at h
        · exact Option.noConfusion h
        · split at h
          · injection h with h
            rw [h]
          · exact Option.noConfusion h

/-- Claim C1: simplifying an address-producing cast of a pointer-producing
cast of `x` (in SIL syntax, `pointer_to_address (address_to_pointer x)`)
returns `some x` exactly when the outer instruction's declared type equals
`x`'s type, and returns `none` whenever those types differ. -/
theorem C1_cast_cancellation_guard (ctx : InstContext) (x : Value) (innerTy outerTy : SILType) :
    (simplifyInstruction ctx
        (Value.conv ConversionKind.pointerToAddress
          (Value.conv ConversionKind.addressToPointer x innerTy) outerTy) = some x
      ↔ outerTy = getType x) ∧
    (outerTy ≠ getType x →
      simplifyInstruction ctx
        (Value.conv ConversionKind.pointerToAddress
          (Value.conv ConversionKind.addressToPointer x innerTy) outerTy) = none) := by
  constructor
  · constructor
    · intro h
      simp only [simplifyInstruction, visitPointerToAddress] at h
      split at h
      next heq => exact heq.symm
      next => exact Option.noConfusion h
    · intro h
      simp only [simplifyInstruction, visitPointerToAddress]
      rw [if_pos h.symm]
  · intro h
    simp only [simplifyInstruction, visitPointerToAddress]
    rw [if_neg (fun e => h e.symm)]

/-- Witness for C1 at concrete inputs: the matching-type probe folds to
`x`, the mismatched-type probe declines. -/
theorem C1_cast_cancellation_guard_witness :
    simplifyInstruction emptyCtx
      (Value.conv ConversionKind.pointerToAddress
        (Value.conv ConversionKind.addressToPointer (Value.input 0 ⟨1⟩) ⟨9⟩) ⟨1⟩)
      = some (Value.input 0 ⟨1⟩)
    ∧ simplifyInstruction emptyCtx
      (Value.conv ConversionKind.pointerToAddress
        (Value.conv ConversionKind.addressToPointer (Value.input 0 ⟨1⟩) ⟨9⟩) ⟨2⟩)
      = none :=
  ⟨(C1_cast_cancellation_guard emptyCtx (Value.input 0 ⟨1⟩) ⟨9⟩ ⟨1⟩).1.mpr rfl,
   (C1_cast_cancellation_guard emptyCtx (Value.input 0 ⟨1⟩) ⟨9⟩ ⟨2⟩).2 (by decide)⟩

/-- Claim C3: an aggregate construct (struct or tuple) simplifies to `S`
exactly when it has at least one operand, its declared type equals `S`'s
type, and its i-th operand is an extract of field i from `S` for every
position; zero-operand constructs never simplify. -/
theorem C3_construct_of_extracts (ctx : InstContext) (ty : SILType) (ops : ValueList)
    (S : Value) :
    (simplifyInstruction ctx (Value.structInst ty ops) = some S ↔
      (0 < ops.length ∧ ty = getType S ∧
        ∀ i, i < ops.length → ∃ t, ops.getVal i = some (Value.structExtract S i t))) ∧
    (simplifyInstruction ctx (Value.tupleInst ty ops) = some S ↔
      (0 < ops.length ∧ ty = getType S ∧
        ∀ i, i < ops.length → ∃ t, ops.getVal i = some (Value.tupleExtract S i t))) ∧
    simplifyInstruction ctx (Value.structInst ty ValueList.nil) = none ∧
    simplifyInstruction ctx (Value.tupleInst ty ValueList.nil) = none := by
  refine ⟨?_, ?_, rfl, rfl⟩
  · constructor
    · intro h
      cases ops with
      | nil => exact Option.noConfusion h
      | cons first rest =>
        simp only [simplifyInstruction, visitStructInst] at h
        split at h
        next src f t =>
          split at h
          · exact Option.noConfusion h
          next hty =>
            split at h
            next hex =>
              injection h with h
              subst h
              refine ⟨by simp only [ValueList.length]; omega, not_not.mp hty, ?_⟩
              intro i hi
              obtain ⟨t2, ht2⟩ := structExtractsFrom_sound src _ 0 hex i hi
              exact ⟨t2, by simpa using ht2⟩
            next => exact Option.noConfusion h
        next => exact Option.noConfusion h
    · rintro ⟨hlen, hty, hall⟩
      cases ops with
      | nil => simp [ValueList.length] at hlen
      | cons first rest =>
        obtain ⟨t0, ht0⟩ := hall 0 (by simp only [ValueList.length]; omega)
        simp only [ValueList.getVal, Option.some.injEq] at ht0
        subst ht0
        have hc : structExtractsFrom S
            (ValueList.cons (Value.structExtract S 0 t0) rest) 0 = true := by
          apply structExtractsFrom_complete
          intro i hi
          obtain ⟨t2, ht2⟩ := hall i hi
          exact ⟨t2, by simpa using ht2⟩
        simp only [simplifyInstruction, visitStructInst]
        rw [if_neg (not_not_intro hty), if_pos hc]
  · constructor
    · intro h
      cases ops with
      | nil => exact Option.noConfusion h
      | cons first rest =>
        simp only [simplifyInstruction, visitTupleInst] at h
        split at h
        next src f t =>
          split at h
          · exact Option.noConfusion h
          next hty =>
            split at h
            next hex =>
              injection h with h
              subst h
              refine ⟨by simp only [ValueList.length]; omega, not_not.mp hty, ?_⟩
              intro i hi
              obtain ⟨t2, ht2⟩ := tupleExtractsFrom_sound src _ 0 hex i hi
              exact ⟨t2, by simpa using ht2⟩
            next => exact Option.noConfusion h
        next => exact Option.noConfusion h
    · rintro ⟨hlen, hty, hall⟩
      cases ops with
      | nil => simp [ValueList.length] at hlen
      | cons first rest =>
        obtain ⟨t0, ht0⟩ := hall 0 (by simp only [ValueList.length]; omega)
        simp only [ValueList.getVal, Option.some.injEq] at ht0
        subst ht0
        have hc : tupleExtractsFrom S
            (ValueList.cons (Value.tupleExtract S 0 t0) rest) 0 = true := by
          apply tupleExtractsFrom_complete
          intro i hi
          obtain ⟨t2, ht2⟩ := hall i hi
          exact ⟨t2, by simpa using ht2⟩
        simp only [simplifyInstruction, visitTupleInst]
        rw [if_neg (not_not_intro hty), if_pos hc]

/-- Witness for C3: a two-field in-order reconstruction folds to the
source; the reordered variant declines. -/
theorem C3_construct_of_extracts_witness :
    simplifyInstruction emptyCtx
      (Value.structInst ⟨1⟩ (ValueList.cons (Value.structExtract (Value.input 7 ⟨1⟩) 0 ⟨2⟩)
        (ValueList.cons (Value.structExtract (Value.input 7 ⟨1⟩) 1 ⟨3⟩) ValueList.nil)))
      = some (Value.input 7 ⟨1⟩) :=
  (C3_construct_of_extracts emptyCtx ⟨1⟩ _ (Value.input 7 ⟨1⟩)).1.mpr
    ⟨by decide, rfl, by
      intro i hi
      simp only [ValueList.length] at hi
      rcases i with _ | _ | n
      · exact ⟨⟨2⟩, rfl⟩
      · exact ⟨⟨3⟩, rfl⟩
      · omega⟩

/-- Claim C4: extracting a payload from an enum construct returns the
payload exactly when the expected element matches the construct's
element, and declines when they differ. -/
theorem C4_enum_data_of_enum (ctx : InstContext) (enumTy dataTy : SILType)
    (tag tag2 : EnumElement) (p : Value) :
    (tag = tag2 →
      simplifyInstruction ctx
        (Value.uncheckedEnumData (Value.enumInst enumTy tag (ValueOpt.someV p)) tag2 dataTy)
        = some p) ∧
    (tag ≠ tag2 →
      simplifyInstruction ctx
        (Value.uncheckedEnumData (Value.enumInst enumTy tag (ValueOpt.someV p)) tag2 dataTy)
        = none) := by
  constructor
  · intro e
    subst e
    simp [simplifyInstruction, visitUncheckedEnumData]
  · intro ne
    simp [simplifyInstruction, visitUncheckedEnumData, ne]

/-- Witness for C4 at concrete tags. -/
theorem C4_enum_data_of_enum_witness :
    simplifyInstruction emptyCtx
      (Value.uncheckedEnumData (Value.enumInst ⟨0⟩ ⟨1⟩ (ValueOpt.someV (Value.input 3 ⟨5⟩)))
        ⟨1⟩ ⟨5⟩) = some (Value.input 3 ⟨5⟩)
    ∧ simplifyInstruction emptyCtx
      (Value.uncheckedEnumData (Value.enumInst ⟨0⟩ ⟨1⟩ (ValueOpt.someV (Value.input 3 ⟨5⟩)))
        ⟨2⟩ ⟨5⟩) = none :=
  ⟨(C4_enum_data_of_enum emptyCtx ⟨0⟩ ⟨5⟩ ⟨1⟩ ⟨1⟩ (Value.input 3 ⟨5⟩)).1 rfl,
   (C4_enum_data_of_enum emptyCtx ⟨0⟩ ⟨5⟩ ⟨1⟩ ⟨2⟩ (Value.input 3 ⟨5⟩)).2 (by decide)⟩

/-- Claim C5: a payloadless enum construct folds to the scrutinee of the
unique predecessor's `switch_enum` when sited in the destination
registered for its element with matching type; with two or more
predecessors it always declines. -/
theorem C5_enum_branch_fold (ctx : InstContext) (ty : SILType) (elt : EnumElement)
    (pred : Nat) (S : Value) (caseDests : List (EnumElement × Nat)) (dflt : Option Nat) :
    (ctx.predecessors = [pred] →
      ctx.terminatorOf pred = Terminator.switchEnum S caseDests dflt →
      getType S = ty →
      getCaseDestination caseDests dflt elt = some ctx.parentBlock →
      simplifyInstruction ctx (Value.enumInst ty elt ValueOpt.noneV) = some S) ∧
    (2 ≤ ctx.predecessors.length →
      simplifyInstruction ctx (Value.enumInst ty elt ValueOpt.noneV) = none) := by
  constructor
  · intro hp ht hty hdest
    simp [simplifyInstruction, visitEnumInst, getSinglePredecessor, hp, ht, hty, hdest]
  · intro h2
    have hnone : getSinglePredecessor ctx = none := by
      unfold getSinglePredecessor
      rcases hl : ctx.predecessors with _ | ⟨p, rest⟩
      · rfl
      · rcases rest with _ | ⟨q, rest2⟩
        · rw [hl] at h2
          simp at h2
        · rfl
    simp [simplifyInstruction, visitEnumInst, hnone]

/-- Witness for C5: the single-predecessor probe folds to the scrutinee;
the two-predecessor probe (with the matching edge still present)
declines. -/
theorem C5_enum_branch_fold_witness :
    simplifyInstruction
      ⟨1, [0], fun b => if b = 0
        then Terminator.switchEnum (Value.input 5 ⟨3⟩) [(⟨1⟩, 1)] none
        else Terminator.otherTerm⟩
      (Value.enumInst ⟨3⟩ ⟨1⟩ ValueOpt.noneV) = some (Value.input 5 ⟨3⟩)
    ∧ simplifyInstruction
      ⟨1, [0, 2], fun b => if b = 0
        then Terminator.switchEnum (Value.input 5 ⟨3⟩) [(⟨1⟩, 1)] none
        else Terminator.otherTerm⟩
      (Value.enumInst ⟨3⟩ ⟨1⟩ ValueOpt.noneV) = none :=
  ⟨(C5_enum_branch_fold _ ⟨3⟩ ⟨1⟩ 0 (Value.input 5 ⟨3⟩) [(⟨1⟩, 1)] none).1 rfl rfl rfl rfl,
   (C5_enum_branch_fold _ ⟨3⟩ ⟨1⟩ 0 (Value.input 5 ⟨3⟩) [(⟨1⟩, 1)] none).2 (by decide)⟩

/-- Claim C8: dispatch is total — every probe returns `some` or `none`,
and every instruction tag without a registered visitor takes the
`visitSILInstruction` default and yields `none`. -/
theorem C8_total_dispatch (ctx : InstContext) (I : Value) :
    (simplifyInstruction ctx I = none ∨ ∃ v, simplifyInstruction ctx I = some v) ∧
      (hasRegisteredRule I = false → simplifyInstruction ctx I = none) := by
  constructor
  · cases hv : simplifyInstruction ctx I with
    | none => exact Or.inl rfl
    | some v => exact Or.inr ⟨v, rfl⟩
  · intro hr
    cases I
    case input => rfl
    case builtinFunctionRef => rfl
    case integerLiteral => rfl
    case otherInst => rfl
    case conv k op t =>
      cases k
      case rawPointerToRef => rfl
      all_goals exact Bool.noConfusion hr
    all_goals exact Bool.noConfusion hr

/-- Witness for C8: an integer literal has no registered rule and yields
`none`. -/
theorem C8_total_dispatch_witness :
    simplifyInstruction emptyCtx (Value.integerLiteral ⟨0⟩ 5) = none :=
  (C8_total_dispatch emptyCtx (Value.integerLiteral ⟨0⟩ 5)).2 rfl

theorem isIntegerLiteral_lit (t : SILType) (v : Int) :
    isIntegerLiteral (Value.integerLiteral t v) = true := rfl

theorem isZeroLiteral_lit_zero (t : SILType) :
    isZeroLiteral (Value.integerLiteral t 0) = true := rfl

theorem isZeroLiteral_lit_one (t : SILType) :
    isZeroLiteral (Value.integerLiteral t 1) = false := rfl

theorem isOneLiteral_lit_one (t : SILType) :
    isOneLiteral (Value.integerLiteral t 1) = true := rfl


/-- Claim C2 counterexample: simplify applied to the overflow call
instruction itself declines (the fold is only reachable through a
tuple extract at field 0), so `simplify(call(add_with_overflow, 0, x))`
is `none`, not `some x`. -/
theorem C2_counterexample :
    simplifyInstruction emptyCtx
      (mkOverflowCall IntrinsicID.sadd_with_overflow BuiltinID.noBuiltin
        (Value.integerLiteral ⟨1⟩ 0) (Value.input 9 ⟨1⟩) ⟨2⟩ ⟨3⟩) = none
    ∧ simplifyInstruction emptyCtx
        (mkOverflowCall IntrinsicID.sadd_with_overflow BuiltinID.noBuiltin
          (Value.integerLiteral ⟨1⟩ 0) (Value.input 9 ⟨1⟩) ⟨2⟩ ⟨3⟩)
        ≠ some (Value.input 9 ⟨1⟩) :=
  ⟨by decide, by decide⟩

/-- Claim C2 (amended): the overflow identity folds hold for simplify
applied to the tuple extract at field 0 of the two-argument call:
`add(0, x)` and (for `x` not itself a zero literal) `add(x, 0)` fold to
`x`; `sub(x, 0)` folds to `x`; `mul(1, x)` and (for `x` not itself a one
literal) `mul(x, 1)` fold to `x`; `mul(0, x)` and (for `x` not itself a
zero literal) `mul(x, 0)` fold to the literal zero operand. -/
theorem C2_overflow_identity_folds (ctx : InstContext) (iid : IntrinsicID) (bid : BuiltinID)
    (x : Value) (litTy fnTy resTy exTy : SILType) :
    (addOverflowID iid →
      simplifyInstruction ctx (Value.tupleExtract
        (mkOverflowCall iid bid (Value.integerLiteral litTy 0) x fnTy resTy) 0 exTy)
        = some x) ∧
    (addOverflowID iid → isZeroLiteral x = false →
      simplifyInstruction ctx (Value.tupleExtract
        (mkOverflowCall iid bid x (Value.integerLiteral litTy 0) fnTy resTy) 0 exTy)
        = some x) ∧
    (subOverflowID iid →
      simplifyInstruction ctx (Value.tupleExtract
        (mkOverflowCall iid bid x (Value.integerLiteral litTy 0) fnTy resTy) 0 exTy)
        = some x) ∧
    (mulOverflowID iid →
      simplifyInstruction ctx (Value.tupleExtract
        (mkOverflowCall iid bid (Value.integerLiteral litTy 1) x fnTy resTy) 0 exTy)
        = some x) ∧
    (mulOverflowID iid → isOneLiteral x = false →
      simplifyInstruction ctx (Value.tupleExtract
        (mkOverflowCall iid bid x (Value.integerLiteral litTy 1) fnTy resTy) 0 exTy)
        = some x) ∧
    (mulOverflowID iid →
      simplifyInstruction ctx (Value.tupleExtract
        (mkOverflowCall iid bid (Value.integerLiteral litTy 0) x fnTy resTy) 0 exTy)
        = some (Value.integerLiteral litTy 0)) ∧
    (mulOverflowID iid → isZeroLiteral x = false →
      simplifyInstruction ctx (Value.tupleExtract
        (mkOverflowCall iid bid x (Value.integerLiteral litTy 0) fnTy resTy) 0 exTy)
        = some (Value.integerLiteral litTy 0)) := by
  refine ⟨?_, ?_, ?_, ?_, ?_, ?_, ?_⟩
  · intro hid
    simp only [addOverflowID] at hid
    rcases hid with rfl | rfl <;>
      simp [simplifyInstruction, visitTupleExtract, mkOverflowCall, simplifyOverflowBuiltin,
        isOverflowIntrinsic, simplifyBinaryWithOverflow, ValueList.getVal,
        simplifyBinaryWithOverflowCore, isIntegerLiteral, isZeroLiteral, isOneLiteral]
  · intro hid hz
    simp only [addOverflowID] at hid
    rcases hid with rfl | rfl <;>
      simp [simplifyInstruction, visitTupleExtract, mkOverflowCall, simplifyOverflowBuiltin,
        isOverflowIntrinsic, simplifyBinaryWithOverflow, ValueList.getVal,
        simplifyBinaryWithOverflowCore, isIntegerLiteral_lit, isZeroLiteral_lit_zero, hz]
  · intro hid
    simp only [subOverflowID] at hid
    rcases hid with rfl | rfl <;>
      simp [simplifyInstruction, visitTupleExtract, mkOverflowCall, simplifyOverflowBuiltin,
        isOverflowIntrinsic, simplifyBinaryWithOverflow, ValueList.getVal,
        simplifyBinaryWithOverflowCore, isIntegerLiteral, isZeroLiteral, isOneLiteral]
  · intro hid
    simp only [mulOverflowID] at hid
    rcases hid with rfl | rfl <;>
      simp [simplifyInstruction, visitTupleExtract, mkOverflowCall, simplifyOverflowBuiltin,
        isOverflowIntrinsic, simplifyBinaryWithOverflow, ValueList.getVal,
        simplifyBinaryWithOverflowCore, isIntegerLiteral, isZeroLiteral, isOneLiteral]
  · intro hid hone
    simp only [mulOverflowID] at hid
    rcases hid with rfl | rfl <;>
      simp [simplifyInstruction, visitTupleExtract, mkOverflowCall, simplifyOverflowBuiltin,
        isOverflowIntrinsic, simplifyBinaryWithOverflow, ValueList.getVal,
        simplifyBinaryWithOverflowCore, isIntegerLiteral_lit, isZeroLiteral_lit_one,
        isOneLiteral_lit_one, hone]
  · intro hid
    simp only [mulOverflowID] at hid
    rcases hid with rfl | rfl <;>
      simp [simplifyInstruction, visitTupleExtract, mkOverflowCall, simplifyOverflowBuiltin,
        isOverflowIntrinsic, simplifyBinaryWithOverflow, ValueList.getVal,
        simplifyBinaryWithOverflowCore, isIntegerLiteral, isZeroLiteral, isOneLiteral]
  · intro hid hz
    simp only [mulOverflowID] at hid
    rcases hid with rfl | rfl <;>
      simp [simplifyInstruction, visitTupleExtract, mkOverflowCall, simplifyOverflowBuiltin,
        isOverflowIntrinsic, simplifyBinaryWithOverflow, ValueList.getVal,
        simplifyBinaryWithOverflowCore, isIntegerLiteral_lit, isZeroLiteral_lit_zero, hz]

/-- Witness for the amended C2 at concrete inputs: one instance of each
fold family. -/
theorem C2_overflow_identity_folds_witness :
    simplifyInstruction emptyCtx (Value.tupleExtract
      (mkOverflowCall IntrinsicID.sadd_with_overflow BuiltinID.noBuiltin
        (Value.integerLiteral ⟨1⟩ 0) (Value.input 9 ⟨1⟩) ⟨2⟩ ⟨3⟩) 0 ⟨1⟩)
      = some (Value.input 9 ⟨1⟩)
    ∧ simplifyInstruction emptyCtx (Value.tupleExtract
      (mkOverflowCall IntrinsicID.usub_with_overflow BuiltinID.noBuiltin
        (Value.input 9 ⟨1⟩) (Value.integerLiteral ⟨1⟩ 0) ⟨2⟩ ⟨3⟩) 0 ⟨1⟩)
      = some (Value.input 9 ⟨1⟩)
    ∧ simplifyInstruction emptyCtx (Value.tupleExtract
      (mkOverflowCall IntrinsicID.smul_with_overflow BuiltinID.noBuiltin
        (Value.input 9 ⟨1⟩) (Value.integerLiteral ⟨1⟩ 1) ⟨2⟩ ⟨3⟩) 0 ⟨1⟩)
      = some (Value.input 9 ⟨1⟩)
    ∧ simplifyInstruction emptyCtx (Value.tupleExtract
      (mkOverflowCall IntrinsicID.umul_with_overflow BuiltinID.noBuiltin
        (Value.input 9 ⟨1⟩) (Value.integerLiteral ⟨1⟩ 0) ⟨2⟩ ⟨3⟩) 0 ⟨1⟩)
      = some (Value.integerLiteral ⟨1⟩ 0) :=
  ⟨(C2_overflow_identity_folds emptyCtx IntrinsicID.sadd_with_overflow BuiltinID.noBuiltin
      (Value.input 9 ⟨1⟩) ⟨1⟩ ⟨2⟩ ⟨3⟩ ⟨1⟩).1 (Or.inl rfl),
   (C2_overflow_identity_folds emptyCtx IntrinsicID.usub_with_overflow BuiltinID.noBuiltin
      (Value.input 9 ⟨1⟩) ⟨1⟩ ⟨2⟩ ⟨3⟩ ⟨1⟩).2.2.1 (Or.inr rfl),
   (C2_overflow_identity_folds emptyCtx IntrinsicID.smul_with_overflow BuiltinID.noBuiltin
      (Value.input 9 ⟨1⟩) ⟨1⟩ ⟨2⟩ ⟨3⟩ ⟨1⟩).2.2.2.2.1 (Or.inl rfl) rfl,
   (C2_overflow_identity_folds emptyCtx IntrinsicID.umul_with_overflow BuiltinID.noBuiltin
      (Value.input 9 ⟨1⟩) ⟨1⟩ ⟨2⟩ ⟨3⟩ ⟨1⟩).2.2.2.2.2.2 (Or.inr rfl) rfl⟩

/-- Claim C6: the mul-by-zero fold returns the literal zero operand
itself — the first operand when it is the literal zero, otherwise the
second — never a newly constructed zero. -/
theorem C6_mul_zero_returns_literal (ctx : InstContext) (iid : IntrinsicID) (bid : BuiltinID)
    (y : Value) (litTy fnTy resTy exTy : SILType) :
    (mulOverflowID iid →
      simplifyInstruction ctx (Value.tupleExtract
        (mkOverflowCall iid bid (Value.integerLiteral litTy 0) y fnTy resTy) 0 exTy)
        = some (Value.integerLiteral litTy 0)) ∧
    (mulOverflowID iid → isZeroLiteral y = false →
      simplifyInstruction ctx (Value.tupleExtract
        (mkOverflowCall iid bid y (Value.integerLiteral litTy 0) fnTy resTy) 0 exTy)
        = some (Value.integerLiteral litTy 0)) := by
  constructor
  · intro hid
    simp only [mulOverflowID] at hid
    rcases hid with rfl | rfl <;>
      simp [simplifyInstruction, visitTupleExtract, mkOverflowCall, simplifyOverflowBuiltin,
        isOverflowIntrinsic, simplifyBinaryWithOverflow, ValueList.getVal,
        simplifyBinaryWithOverflowCore, isIntegerLiteral, isZeroLiteral, isOneLiteral]
  · intro hid hz
    simp only [mulOverflowID] at hid
    rcases hid with rfl | rfl <;>
      simp [simplifyInstruction, visitTupleExtract, mkOverflowCall, simplifyOverflowBuiltin,
        isOverflowIntrinsic, simplifyBinaryWithOverflow, ValueList.getVal,
        simplifyBinaryWithOverflowCore, isIntegerLiteral_lit, isZeroLiteral_lit_zero, hz]

/-- Witness for C6: both operand orders at a concrete non-zero `y`. -/
theorem C6_mul_zero_returns_literal_witness :
    simplifyInstruction emptyCtx (Value.tupleExtract
      (mkOverflowCall IntrinsicID.smul_with_overflow BuiltinID.noBuiltin
        (Value.integerLiteral ⟨1⟩ 0) (Value.input 4 ⟨1⟩) ⟨2⟩ ⟨3⟩) 0 ⟨1⟩)
      = some (Value.integerLiteral ⟨1⟩ 0)
    ∧ simplifyInstruction emptyCtx (Value.tupleExtract
      (mkOverflowCall IntrinsicID.smul_with_overflow BuiltinID.noBuiltin
        (Value.input 4 ⟨1⟩) (Value.integerLiteral ⟨1⟩ 0) ⟨2⟩ ⟨3⟩) 0 ⟨1⟩)
      = some (Value.integerLiteral ⟨1⟩ 0) :=
  ⟨(C6_mul_zero_returns_literal emptyCtx IntrinsicID.smul_with_overflow BuiltinID.noBuiltin
      (Value.input 4 ⟨1⟩) ⟨1⟩ ⟨2⟩ ⟨3⟩ ⟨1⟩).1 (Or.inl rfl),
   (C6_mul_zero_returns_literal emptyCtx IntrinsicID.smul_with_overflow BuiltinID.noBuiltin
      (Value.input 4 ⟨1⟩) ⟨1⟩ ⟨2⟩ ⟨3⟩ ⟨1⟩).2 (Or.inl rfl) rfl⟩

/-- Claim C7: a fold candidate whose two operands do not match the
relevant identity pattern never simplifies: for add, when neither
operand is a zero literal; for sub, when the second operand is not a
zero literal; for mul, when neither operand is a zero or one literal —
covering in particular two non-literal operands and two literal operands
with non-identity values, so the engine never evaluates two concrete
constants arithmetically. -/
theorem C7_no_constant_evaluation (ctx : InstContext) (iid : IntrinsicID) (bid : BuiltinID)
    (a b : Value) (fnTy resTy exTy : SILType) :
    (addOverflowID iid → isZeroLiteral a = false → isZeroLiteral b = false →
      simplifyInstruction ctx (Value.tupleExtract
        (mkOverflowCall iid bid a b fnTy resTy) 0 exTy) = none) ∧
    (subOverflowID iid → isZeroLiteral b = false →
      simplifyInstruction ctx (Value.tupleExtract
        (mkOverflowCall iid bid a b fnTy resTy) 0 exTy) = none) ∧
    (mulOverflowID iid → isZeroLiteral a = false → isZeroLiteral b = false →
      isOneLiteral a = false → isOneLiteral b = false →
      simplifyInstruction ctx (Value.tupleExtract
        (mkOverflowCall iid bid a b fnTy resTy) 0 exTy) = none) ∧
    (anyOverflowID iid → isIntegerLiteral a = false → isIntegerLiteral b = false →
      simplifyInstruction ctx (Value.tupleExtract
        (mkOverflowCall iid bid a b fnTy resTy) 0 exTy) = none) := by
  refine ⟨?_, ?_, ?_, ?_⟩
  · intro hid hz1 hz2
    simp only [addOverflowID] at hid
    rcases hid with rfl | rfl <;>
      simp [simplifyInstruction, visitTupleExtract, mkOverflowCall, simplifyOverflowBuiltin,
        isOverflowIntrinsic, simplifyBinaryWithOverflow, ValueList.getVal,
        simplifyBinaryWithOverflowCore, hz1, hz2]
  · intro hid hz2
    simp only [subOverflowID] at hid
    rcases hid with rfl | rfl <;>
      simp [simplifyInstruction, visitTupleExtract, mkOverflowCall, simplifyOverflowBuiltin,
        isOverflowIntrinsic, simplifyBinaryWithOverflow, ValueList.getVal,
        simplifyBinaryWithOverflowCore, hz2]
  · intro hid hz1 hz2 ho1 ho2
    simp only [mulOverflowID] at hid
    rcases hid with rfl | rfl <;>
      simp [simplifyInstruction, visitTupleExtract, mkOverflowCall, simplifyOverflowBuiltin,
        isOverflowIntrinsic, simplifyBinaryWithOverflow, ValueList.getVal,
        simplifyBinaryWithOverflowCore, hz1, hz2, ho1, ho2]
  · intro hid hx hy
    simp only [anyOverflowID, addOverflowID, subOverflowID, mulOverflowID] at hid
    rcases hid with (rfl | rfl) | (rfl | rfl) | (rfl | rfl) <;>
      simp [simplifyInstruction, visitTupleExtract, mkOverflowCall, simplifyOverflowBuiltin,
        isOverflowIntrinsic, simplifyBinaryWithOverflow, ValueList.getVal,
        simplifyBinaryWithOverflowCore, hx, hy]

/-- Witness for C7 at concrete inputs: sub of literals 5 and 3, sub of a
non-literal by literal 3, add of literal 5 and a non-literal, mul of a
non-literal by literal 7, and two non-literal operands all decline. -/
theorem C7_no_constant_evaluation_witness :
    simplifyInstruction emptyCtx (Value.tupleExtract
      (mkOverflowCall IntrinsicID.ssub_with_overflow BuiltinID.noBuiltin
        (Value.integerLiteral ⟨1⟩ 5) (Value.integerLiteral ⟨1⟩ 3) ⟨2⟩ ⟨3⟩) 0 ⟨1⟩) = none
    ∧ simplifyInstruction emptyCtx (Value.tupleExtract
      (mkOverflowCall IntrinsicID.usub_with_overflow BuiltinID.noBuiltin
        (Value.input 1 ⟨1⟩) (Value.integerLiteral ⟨1⟩ 3) ⟨2⟩ ⟨3⟩) 0 ⟨1⟩) = none
    ∧ simplifyInstruction emptyCtx (Value.tupleExtract
      (mkOverflowCall IntrinsicID.sadd_with_overflow BuiltinID.noBuiltin
        (Value.integerLiteral ⟨1⟩ 5) (Value.input 2 ⟨1⟩) ⟨2⟩ ⟨3⟩) 0 ⟨1⟩) = none
    ∧ simplifyInstruction emptyCtx (Value.tupleExtract
      (mkOverflowCall IntrinsicID.smul_with_overflow BuiltinID.noBuiltin
        (Value.input 1 ⟨1⟩) (Value.integerLiteral ⟨1⟩ 7) ⟨2⟩ ⟨3⟩) 0 ⟨1⟩) = none
    ∧ simplifyInstruction emptyCtx (Value.tupleExtract
      (mkOverflowCall IntrinsicID.uadd_with_overflow BuiltinID.noBuiltin
        (Value.input 1 ⟨1⟩) (Value.input 2 ⟨1⟩) ⟨2⟩ ⟨3⟩) 0 ⟨1⟩) = none :=
  ⟨(C7_no_constant_evaluation emptyCtx IntrinsicID.ssub_with_overflow BuiltinID.noBuiltin
      (Value.integerLiteral ⟨1⟩ 5) (Value.integerLiteral ⟨1⟩ 3) ⟨2⟩ ⟨3⟩ ⟨1⟩).2.1
      (Or.inl rfl) (by decide),
   (C7_no_constant_evaluation emptyCtx IntrinsicID.usub_with_overflow BuiltinID.noBuiltin
      (Value.input 1 ⟨1⟩) (Value.integerLiteral ⟨1⟩ 3) ⟨2⟩ ⟨3⟩ ⟨1⟩).2.1
      (Or.inr rfl) (by decide),
   (C7_no_constant_evaluation emptyCtx IntrinsicID.sadd_with_overflow BuiltinID.noBuiltin
      (Value.integerLiteral ⟨1⟩ 5) (Value.input 2 ⟨1⟩) ⟨2⟩ ⟨3⟩ ⟨1⟩).1
      (Or.inl rfl) (by decide) rfl,
   (C7_no_constant_evaluation emptyCtx IntrinsicID.smul_with_overflow BuiltinID.noBuiltin
      (Value.input 1 ⟨1⟩) (Value.integerLiteral ⟨1⟩ 7) ⟨2⟩ ⟨3⟩ ⟨1⟩).2.2.1
      (Or.inl rfl) rfl (by decide) rfl (by decide),
   (C7_no_constant_evaluation emptyCtx IntrinsicID.uadd_with_overflow BuiltinID.noBuiltin
      (Value.input 1 ⟨1⟩) (Value.input 2 ⟨1⟩) ⟨2⟩ ⟨3⟩ ⟨1⟩).2.2.2
      (Or.inl (Or.inr rfl)) rfl rfl⟩


/-- Claim C9 counterexample: the enum branch-fold rule returns the
predecessor switch's scrutinee, which is not an operand of the
payloadless enum instruction (it has no operands), refuting the claim
that every returned value is an operand of the instruction or of one of
its operands. -/
theorem C9_counterexample :
    simplifyInstruction
      ⟨1, [0], fun _ => Terminator.switchEnum (Value.input 5 ⟨0⟩) [(⟨1⟩, 1)] none⟩
      (Value.enumInst ⟨0⟩ ⟨1⟩ ValueOpt.noneV) = some (Value.input 5 ⟨0⟩)
    ∧ ¬ withinTwo (Value.enumInst ⟨0⟩ ⟨1⟩ ValueOpt.noneV) (Value.input 5 ⟨0⟩) := by
  constructor
  · rfl
  · simp [withinTwo, directOperands]

/-- Claim C9 (amended): whenever a probe returns `some V`, either `V` is
a direct operand of the instruction or a direct operand of one of its
direct operands and is distinct from the instruction itself, or the
instruction is a payloadless enum construct and `V` is the scrutinee of
the unique predecessor's `switch_enum` terminator. -/
theorem C9_replacement_provenance (ctx : InstContext) (I V : Value)
    (h : simplifyInstruction ctx I = some V) :
    (withinTwo I V ∧ V ≠ I) ∨
      ((∃ ty elt, I = Value.enumInst ty elt ValueOpt.noneV) ∧ switchScrutinee ctx = some V) := by
  cases I with
  | input vid t => exact Option.noConfusion h
  | structInst t ops =>
    have hp := visitStructInst_prov t ops V h
    exact Or.inl ⟨hp, withinTwo_ne _ _ hp⟩
  | tupleInst t ops =>
    have hp := visitTupleInst_prov t ops V h
    exact Or.inl ⟨hp, withinTwo_ne _ _ hp⟩
  | structExtract op f t =>
    have hp := visitStructExtract_prov op f t V h
    exact Or.inl ⟨hp, withinTwo_ne _ _ hp⟩
  | tupleExtract op f t =>
    have hp := visitTupleExtract_prov op f t V h
    exact Or.inl ⟨hp, withinTwo_ne _ _ hp⟩
  | enumInst t elt payload =>
    obtain ⟨hp, hs⟩ := visitEnumInst_scrutinee ctx t elt payload V h
    subst hp
    exact Or.inr ⟨⟨t, elt, rfl⟩, hs⟩
  | uncheckedEnumData op elt t =>
    have hp := visitUncheckedEnumData_prov op elt t V h
    exact Or.inl ⟨hp, withinTwo_ne _ _ hp⟩
  | conv k op t =>
    cases k with
    | addressToPointer =>
      have hp := visitAddressToPointer_prov op t V h
      exact Or.inl ⟨hp, withinTwo_ne _ _ hp⟩
    | pointerToAddress =>
      have hp := visitPointerToAddress_prov op t V h
      exact Or.inl ⟨hp, withinTwo_ne _ _ hp⟩
    | refToRawPointer =>
      have hp := visitRefToRawPointer_prov op t V h
      exact Or.inl ⟨hp, withinTwo_ne _ _ hp⟩
    | rawPointerToRef => exact Option.noConfusion h
    | uncheckedRefCast =>
      have hp := visitUncheckedRefCast_prov op t V h
      exact Or.inl ⟨hp, withinTwo_ne _ _ hp⟩
    | uncheckedAddrCast =>
      have hp := visitUncheckedAddrCast_prov op t V h
      exact Or.inl ⟨hp, withinTwo_ne _ _ hp⟩
    | upcastK =>
      have hp := visitUpcast_prov op t V h
      exact Or.inl ⟨hp, withinTwo_ne _ _ hp⟩
  | unconditionalCheckedCast k op t =>
    have hp := visitUnconditionalCheckedCast_prov k op t V h
    exact Or.inl ⟨hp, withinTwo_ne _ _ hp⟩
  | apply callee args t =>
    have hp := visitApply_prov callee args t V h
    exact Or.inl ⟨hp, withinTwo_ne _ _ hp⟩
  | builtinFunctionRef i b t => exact Option.noConfusion h
  | integerLiteral t v => exact Option.noConfusion h
  | otherInst tag ops t => exact Option.noConfusion h

/-- Witness for the amended C9: the self-cast rule returns the cast's
operand, a direct operand distinct from the cast. -/
theorem C9_replacement_provenance_witness :
    (withinTwo (Value.conv ConversionKind.uncheckedRefCast (Value.input 0 ⟨1⟩) ⟨1⟩)
        (Value.input 0 ⟨1⟩)
      ∧ Value.input 0 ⟨1⟩ ≠ Value.conv ConversionKind.uncheckedRefCast (Value.input 0 ⟨1⟩) ⟨1⟩) ∨
    ((∃ ty elt, Value.conv ConversionKind.uncheckedRefCast (Value.input 0 ⟨1⟩) ⟨1⟩
        = Value.enumInst ty elt ValueOpt.noneV)
      ∧ switchScrutinee emptyCtx = some (Value.input 0 ⟨1⟩)) :=
  C9_replacement_provenance emptyCtx
    (Value.conv ConversionKind.uncheckedRefCast (Value.input 0 ⟨1⟩) ⟨1⟩)
    (Value.input 0 ⟨1⟩) rfl

/-- Claim C10: the overflow folds fire only through a tuple extract at
field 0 — simplify on the overflow call itself always declines, and a
tuple extract of the call at any nonzero field always declines, while a
field-0 extract of a concrete identity call folds. -/
theorem C10_folds_only_through_extract_zero (ctx : InstContext) (iid : IntrinsicID)
    (bid : BuiltinID) (args : ValueList) (k : Nat) (fnTy resTy exTy : SILType) :
    (anyOverflowID iid →
      simplifyInstruction ctx
        (Value.apply (Value.builtinFunctionRef iid bid fnTy) args resTy) = none) ∧
    (k ≠ 0 →
      simplifyInstruction ctx (Value.tupleExtract
        (Value.apply (Value.builtinFunctionRef iid bid fnTy) args resTy) k exTy) = none) ∧
    simplifyInstruction ctx (Value.tupleExtract
      (mkOverflowCall IntrinsicID.sadd_with_overflow BuiltinID.noBuiltin
        (Value.integerLiteral ⟨0⟩ 0) (Value.input 9 ⟨0⟩) ⟨1⟩ ⟨2⟩) 0 ⟨0⟩)
      = some (Value.input 9 ⟨0⟩) := by
  refine ⟨?_, ?_, rfl⟩
  · intro hid
    simp only [anyOverflowID, addOverflowID, subOverflowID, mulOverflowID] at hid
    rcases hid with (rfl | rfl) | (rfl | rfl) | (rfl | rfl) <;>
      simp [simplifyInstruction, visitApply]
  · intro hk
    simp [simplifyInstruction, visitTupleExtract, hk]

/-- Witness for C10: the call itself and the field-1 extract decline. -/
theorem C10_folds_only_through_extract_zero_witness :
    simplifyInstruction emptyCtx
      (Value.apply (Value.builtinFunctionRef IntrinsicID.sadd_with_overflow
        BuiltinID.noBuiltin ⟨1⟩)
        (ValueList.cons (Value.integerLiteral ⟨0⟩ 0)
          (ValueList.cons (Value.input 9 ⟨0⟩) ValueList.nil)) ⟨2⟩) = none
    ∧ simplifyInstruction emptyCtx (Value.tupleExtract
      (Value.apply (Value.builtinFunctionRef IntrinsicID.sadd_with_overflow
        BuiltinID.noBuiltin ⟨1⟩)
        (ValueList.cons (Value.integerLiteral ⟨0⟩ 0)
          (ValueList.cons (Value.input 9 ⟨0⟩) ValueList.nil)) ⟨2⟩) 1 ⟨4⟩) = none :=
  ⟨(C10_folds_only_through_extract_zero emptyCtx IntrinsicID.sadd_with_overflow
      BuiltinID.noBuiltin
      (ValueList.cons (Value.integerLiteral ⟨0⟩ 0)
        (ValueList.cons (Value.input 9 ⟨0⟩) ValueList.nil)) 1 ⟨1⟩ ⟨2⟩ ⟨4⟩).1
      (Or.inl (Or.inl rfl)),
   (C10_folds_only_through_extract_zero emptyCtx IntrinsicID.sadd_with_overflow
      BuiltinID.noBuiltin
      (ValueList.cons (Value.integerLiteral ⟨0⟩ 0)
        (ValueList.cons (Value.input 9 ⟨0⟩) ValueList.nil)) 1 ⟨1⟩ ⟨2⟩ ⟨4⟩).2.1
      (by decide)⟩
